import Mathlib

/-!
Shallow embedding of `src/main.py` (Coda AI Assistant).

The Python program is sequential API orchestration: a workspace client
fetching docs/pages/tables/columns/rows from the Coda REST API, an
aggregation pass with an emptiness filter on rows, a formatter producing a
text block, a two-field process-global cache, and FastAPI handlers.

Modelling choices:
  * Upstream cell values are modelled by the inductive `Value` covering the
    JSON-ish shapes the code manipulates (`None`, booleans, integers,
    strings, lists).  Python truthiness and the membership test
    `v in [None, "", False, "False"]` are compiled to the boolean functions
    `truthy` and `inEmptySet` (note `0 == False` in Python, so an integer
    zero is a member of that list).
  * A Python dict is modelled as an association list in insertion order
    (`dictInsert` replaces in place on key collision, appends otherwise),
    which is exactly CPython dict semantics for the operations used.
  * Network calls are modelled by a `CodaClient` record of possibly-failing
    results (`Except String`), and every embedded function additionally
    returns the list of `CallEv` events it issued, so that "issues no call
    to the workspace client" is a statement about an empty trace.
  * The two module-level cache globals are threaded explicitly as
    `CacheState`.
  * A raised exception that escapes a handler is an `Except.error`; FastAPI
    `HTTPException` and an unhandled propagated exception are the two
    constructors of `HandlerFault`.
-/

namespace CodaApp

/-- A scalar upstream cell value. -/
inductive Scalar where
  | sNone
  | sBool (b : Bool)
  | sInt (n : Int)
  | sStr (s : String)
deriving Repr, DecidableEq

/-- An upstream cell value (opaque JSON-ish data passed through
untouched): a scalar or a container of scalars.  Deeper container nesting
is omitted because the program only compares values against scalar
sentinels, tests truthiness and stringifies them, so one container level
already exhibits every behaviour the code distinguishes. -/
inductive Value where
  | atom (a : Scalar)
  | vList (xs : List Scalar)
deriving Repr, DecidableEq

/-- Python truthiness `bool(v)` for the shapes in `Value`. -/
def truthy : Value → Bool
  | .atom .sNone => false
  | .atom (.sBool b) => b
  | .atom (.sInt n) => n != 0
  | .atom (.sStr s) => s != ""
  | .vList xs => !xs.isEmpty

/-- The membership test `v in [None, "", False, "False"]` from
`src/main.py` lines 144 and 183, compiled to Python `==` semantics:
`None` matches only `None`; a string matches `""` or `"False"`; the
boolean `False` matches itself; an integer matches the entry `False`
exactly when it is `0` (Python has `0 == False`); a list matches no
entry of that list. -/
def inEmptySet : Value → Bool
  | .atom .sNone => true
  | .atom (.sBool b) => b == false
  | .atom (.sInt n) => n == 0
  | .atom (.sStr s) => s == "" || s == "False"
  | .vList _ => false

/-- A row after column-name substitution: a Python dict from column name to
value, in insertion order. -/
abbrev Row : Type := List (String × Value)

/-- CPython dict assignment `d[k] = v` on an insertion-ordered
association list: replace in place if the key is present, else append. -/
def dictInsert (d : List (String × Value)) (k : String) (v : Value) :
    List (String × Value) :=
  if d.any (fun p => p.1 == k) then
    d.map (fun p => if p.1 == k then (k, v) else p)
  else
    d ++ [(k, v)]

structure DocMeta where
  id : String
  name : String
deriving Repr, DecidableEq

structure PageMeta where
  id : String
  name : String
deriving Repr, DecidableEq

/-- A table as listed by `GET /docs/{doc}/tables`; `parent_id` is
`table.get("parent", {}).get("id")` (`none` when absent). -/
structure TableMeta where
  id : String
  name : String
  parent_id : Option String
deriving Repr, DecidableEq

structure ColumnMeta where
  id : String
  name : String
deriving Repr, DecidableEq

/-- A raw row from `GET .../rows`: the `values` dict keyed by column id. -/
structure RawRow where
  values : List (String × Value)
deriving Repr, DecidableEq

/-- `{c["id"]: c["name"] for c in cols}.get(cid, cid)` — dict comprehension
semantics: a later column with the same id overwrites an earlier one. -/
def colmapGet (cols : List ColumnMeta) (cid : String) : String :=
  (cols.foldl (fun acc c => if c.id == cid then some c.name else acc) none).getD cid

/-- Lines 100-104 of `src/main.py`: rebuild each row keyed by column
names via `clean[colmap.get(col_id, col_id)] = val`. -/
def renameRow (cols : List ColumnMeta) (row : RawRow) : Row :=
  row.values.foldl (fun clean kv => dictInsert clean (colmapGet cols kv.1) kv.2) []

/-- Line 144: `any(v for v in r.values() if v not in [None, "", False, "False"])`
— there is a value that survives the `not in` filter and is truthy. -/
def rowHasData (r : Row) : Bool :=
  r.any (fun kv => !(inEmptySet kv.2) && truthy kv.2)

/-- One upstream call event, used to trace workspace-client (and model)
usage. -/
inductive CallEv where
  | docs
  | pages (doc_id : String)
  | tables (doc_id : String)
  | columns (doc_id table_id : String)
  | rows (doc_id table_id : String)
  | gemini
deriving Repr, DecidableEq

/-- The workspace client: each listing either returns parsed items or
raises (models a `requests` fault or malformed response). -/
structure CodaClient where
  listDocs : Except String (List DocMeta)
  listPages : String → Except String (List PageMeta)
  listTables : String → Except String (List TableMeta)
  listColumns : String → String → Except String (List ColumnMeta)
  listRows : String → String → Except String (List RawRow)

/-- `get_all_docs` (lines 60-63). -/
def get_all_docs (c : CodaClient) : Except String (List DocMeta) × List CallEv :=
  (c.listDocs, [.docs])

/-- `get_pages` (lines 71-74). -/
def get_pages (c : CodaClient) (doc_id : String) :
    Except String (List PageMeta) × List CallEv :=
  (c.listPages doc_id, [.pages doc_id])

/-- `get_tables_created_on_page` (lines 76-86): fetch all tables of the
doc, keep those whose parent id equals the page id. -/
def get_tables_created_on_page (c : CodaClient) (doc_id page_id : String) :
    Except String (List TableMeta) × List CallEv :=
  match c.listTables doc_id with
  | .error e => (.error e, [.tables doc_id])
  | .ok all_tables =>
    (.ok (all_tables.filter (fun t => t.parent_id == some page_id)), [.tables doc_id])

/-- `get_column_map` (lines 88-92); the id→name dict is kept as the raw
column list, looked up through `colmapGet`. -/
def get_column_map (c : CodaClient) (doc_id table_id : String) :
    Except String (List ColumnMeta) × List CallEv :=
  (c.listColumns doc_id table_id, [.columns doc_id table_id])

/-- `get_rows` (lines 94-106). -/
def get_rows (c : CodaClient) (doc_id table_id : String) (cols : List ColumnMeta) :
    Except String (List Row) × List CallEv :=
  match c.listRows doc_id table_id with
  | .error e => (.error e, [.rows doc_id table_id])
  | .ok items => (.ok (items.map (renameRow cols)), [.rows doc_id table_id])

structure TableData where
  table_name : String
  columns : List String
  rows : List Row
deriving DecidableEq

structure PageData where
  page_name : String
  tables : List TableData
deriving DecidableEq

/-- The `try` body of lines 137-158 for one table: fetch columns and rows,
filter empty rows, and return the table record when at least one row
survives; any fault inside the `try` skips the table (`none`). -/
def processTable (c : CodaClient) (doc_id : String) (t : TableMeta) :
    Option TableData × List CallEv :=
  match get_column_map c doc_id t.id with
  | (.error _, tr) => (none, tr)
  | (.ok cols, tr) =>
    match get_rows c doc_id t.id cols with
    | (.error _, tr2) => (none, tr ++ tr2)
    | (.ok rows, tr2) =>
      let filtered := rows.filter rowHasData
      (match filtered with
       | [] => none
       | r0 :: rs => some { table_name := t.name
                            columns := r0.map Prod.fst
                            rows := r0 :: rs },
       tr ++ tr2)

/-- The inner `for table in tables` loop: surviving tables in order. -/
def processTables (c : CodaClient) (doc_id : String) :
    List TableMeta → List TableData × List CallEv
  | [] => ([], [])
  | t :: ts =>
    let r := processTable c doc_id t
    let rest := processTables c doc_id ts
    (r.1.toList ++ rest.1, r.2 ++ rest.2)

/-- One iteration of the `for page in pages` loop (lines 122-161): list the
page's tables (a fault here propagates), process each, and keep the page
only when it has at least one surviving table. -/
def processPage (c : CodaClient) (doc_id : String) (p : PageMeta) :
    Except String (Option PageData) × List CallEv :=
  match get_tables_created_on_page c doc_id p.id with
  | (.error e, tr) => (.error e, tr)
  | (.ok ts, tr) =>
    let r := processTables c doc_id ts
    (.ok (if r.1.isEmpty then none else some ⟨p.name, r.1⟩), tr ++ r.2)

/-- The whole page loop, accumulating `all_data`. -/
def processPages (c : CodaClient) (doc_id : String) :
    List PageMeta → Except String (List PageData) × List CallEv
  | [] => (.ok [], [])
  | p :: ps =>
    match processPage c doc_id p with
    | (.error e, tr) => (.error e, tr)
    | (.ok opd, tr) =>
      match processPages c doc_id ps with
      | (.error e, tr2) => (.error e, tr ++ tr2)
      | (.ok rest, tr2) => (.ok (opd.toList ++ rest), tr ++ tr2)

/-- The two module-level cache globals (lines 109-110). -/
structure CacheState where
  coda_data_cache : Option (List PageData)
  formatted_data_cache : Option String
deriving DecidableEq

/-- `get_all_coda_data` (lines 112-164): return the cached list when
present; otherwise walk every page, store the result in
`coda_data_cache`, and return it.  A fault from the page listing or a
per-page table listing propagates with the cache unchanged (the store on
line 163 is only reached on success). -/
def get_all_coda_data (c : CodaClient) (doc_id : String) (st : CacheState) :
    Except String (List PageData) × CacheState × List CallEv :=
  match st.coda_data_cache with
  | some d => (.ok d, st, [])
  | none =>
    match get_pages c doc_id with
    | (.error e, tr) => (.error e, st, tr)
    | (.ok pages, tr) =>
      match processPages c doc_id pages with
      | (.error e, tr2) => (.error e, st, tr ++ tr2)
      | (.ok all_data, tr2) =>
        (.ok all_data, { st with coda_data_cache := some all_data }, tr ++ tr2)

/-- Python `repr` for a scalar (used inside list stringification). -/
def Scalar.pyRepr : Scalar → String
  | .sNone => "None"
  | .sBool true => "True"
  | .sBool false => "False"
  | .sInt n => toString n
  | .sStr s => "\x27" ++ s ++ "\x27"

/-- Python `str(v)` as used by the `f"{k}: {v}"` interpolation on line 183:
a string renders bare, any other scalar by its repr, and a list renders
with brackets and the reprs of its elements. -/
def pyStr : Value → String
  | .atom (.sStr s) => s
  | .atom a => a.pyRepr
  | .vList xs => "[" ++ String.intercalate ", " (xs.map Scalar.pyRepr) ++ "]"

/-- Line 183: `" | ".join([f"{k}: {v}" for k, v in row.items() if v not in
[None, "", False, "False"]])`. -/
def renderRowPairs (r : Row) : String :=
  String.intercalate " | "
    ((r.filter (fun kv => !(inEmptySet kv.2))).map (fun kv => kv.1 ++ ": " ++ pyStr kv.2))

/-- The `for i, row in enumerate(table["rows"], 1)` loop of lines 182-184,
appending onto the accumulated `formatted_text`. -/
def appendRows (acc : String) (i : Nat) : List Row → String
  | [] => acc
  | r :: rs => appendRows (acc ++ toString i ++ ". " ++ renderRowPairs r ++ "\n") (i + 1) rs

/-- The `for table in page["tables"]` loop of lines 178-186. -/
def appendTables (acc : String) : List TableData → String
  | [] => acc
  | t :: ts =>
    appendTables
      (appendRows
        (acc ++ "\nTABLE: " ++ t.table_name ++ "\n" ++
          "Columns: " ++ String.intercalate ", " t.columns ++ "\n")
        1 t.rows ++ "\n") ts

/-- The `for page in coda_data` loop of lines 175-186. -/
def appendPages (acc : String) : List PageData → String
  | [] => acc
  | p :: ps => appendPages (appendTables (acc ++ "=== PAGE: " ++ p.page_name ++ " ===\n") p.tables) ps

/-- The full text built by lines 173-186, starting from the banner. -/
def formatText (coda_data : List PageData) : String :=
  appendPages "CODA DOCUMENT DATA:\n\n" coda_data

/-- `format_data_for_gemini` (lines 166-189): return the cached string
when present (whatever the argument), otherwise build the text and store
it in `formatted_data_cache`. -/
def format_data_for_gemini (coda_data : List PageData) (st : CacheState) :
    String × CacheState :=
  match st.formatted_data_cache with
  | some s => (s, st)
  | none =>
    let s := formatText coda_data
    (s, { st with formatted_data_cache := some s })

/-- Specification-side rendering of one table's numbered row lines,
numbering from `i`. -/
def renderRows : Nat → List Row → String
  | _, [] => ""
  | i, r :: rs => toString i ++ ". " ++ renderRowPairs r ++ "\n" ++ renderRows (i + 1) rs

/-- Specification-side rendering of one table block: heading, comma-joined
column list, numbered row lines restarting at 1, trailing blank line. -/
def renderTable (t : TableData) : String :=
  "\nTABLE: " ++ t.table_name ++ "\n" ++
    "Columns: " ++ String.intercalate ", " t.columns ++ "\n" ++
    renderRows 1 t.rows ++ "\n"

/-- Concatenation of a list of blocks. -/
def joinStrings : List String → String
  | [] => ""
  | s :: ss => s ++ joinStrings ss

/-- Specification-side rendering of one page section. -/
def renderPage (p : PageData) : String :=
  "=== PAGE: " ++ p.page_name ++ " ===\n" ++ joinStrings (p.tables.map renderTable)

/-- Specification-side compositional rendering of the whole text: fixed
banner, then the page sections in order. -/
def renderAll (d : List PageData) : String :=
  "CODA DOCUMENT DATA:\n\n" ++ joinStrings (d.map renderPage)

/-- Python `str.lower()` (ASCII case folding; every name in the program
is ASCII). -/
def pyLower (s : String) : String :=
  String.mk (s.data.map Char.toLower)

/-- Python `str.strip()`: drop leading and trailing whitespace. -/
def pyStrip (s : String) : String :=
  String.mk (((s.data.dropWhile Char.isWhitespace).reverse.dropWhile Char.isWhitespace).reverse)

/-- `name.strip().lower()` as used on line 67. -/
def normName (s : String) : String :=
  pyLower (pyStrip s)

/-- The loop of `resolve_doc_id` (lines 66-69): first document whose
normalised name equals the normalised target wins. -/
def resolve_from_docs (target : String) : List DocMeta → Option String
  | [] => none
  | d :: ds =>
    if normName d.name == normName target then some d.id
    else resolve_from_docs target ds

/-- `resolve_doc_id` (lines 65-69), with the `get_all_docs` call traced. -/
def resolve_doc_id (c : CodaClient) (doc_name : String) :
    Except String (Option String) × List CallEv :=
  match get_all_docs c with
  | (.error e, tr) => (.error e, tr)
  | (.ok ds, tr) => (.ok (resolve_from_docs doc_name ds), tr)

/-- The fixed prompt template of lines 197-215 (f-string with the context
and question embedded verbatim). -/
def buildPrompt (context_data question : String) : String :=
  "\n    You are an AI assistant analyzing data from a Coda document. \n" ++
    "    Here is the data from the Coda document:\n\n    " ++ context_data ++
    "\n\n    Please analyze this data and answer the following question:\n    " ++
    question ++
    "\n\n    Instructions:\n" ++
    "    1. Be specific and accurate in your answer\n" ++
    "    2. Reference actual data points from the tables when possible\n" ++
    "    3. If the data doesn\x27t contain information to answer the question, say so\n" ++
    "    4. Provide insights based on the available data\n" ++
    "    5. Keep your response clear and concise\n" ++
    "    6. Format the response in a readable way without using markdown symbols like *\n\n" ++
    "    Answer:\n    "

/-- `ask_gemini_about_data` (lines 194-227): build the prompt, call the
model (`gen`), and catch any model fault, converting it into an error
string returned in place of an answer — this function never raises. -/
def ask_gemini_about_data (gen : String → Except String String)
    (context_data question : String) : String × List CallEv :=
  (match gen (buildPrompt context_data question) with
   | .ok t => t
   | .error e => "Error communicating with Gemini AI: " ++ e,
   [.gemini])

/-- The document name hard-coded in every handler. -/
def configured_doc_name : String :=
  "samdanielvincy\x27s Coda Playground"

/-- What escapes a handler: a FastAPI `HTTPException`, or an unhandled
exception propagating to the framework. -/
inductive HandlerFault where
  | http (status : Nat) (detail : String)
  | unhandled (msg : String)
deriving Repr, DecidableEq

/-- Python `str()` of a caught `HTTPException`, as interpolated into the
blanket `except` handlers (exact text immaterial to every claim). -/
def strOfHTTP (status : Nat) (detail : String) : String :=
  toString status ++ ": " ++ detail

structure CliqRequest where
  text : String
  user_name : Option String
  user_id : Option String
  channel_name : Option String
deriving Repr, DecidableEq

structure AIResponse where
  answer : String
  status : String
deriving Repr, DecidableEq

structure CliqResp where
  text : String
  color : String
deriving Repr, DecidableEq

structure RefreshResp where
  message : String
  status : String
deriving Repr, DecidableEq

/-- The context-building pair of calls issued by the `/ask` and
`/cliq/ask` handlers (lines 256-257 and 287-288): aggregation then
formatting. -/
def buildContext (c : CodaClient) (doc_id : String) (st : CacheState) :
    Except String (List PageData × String) × CacheState × List CallEv :=
  match get_all_coda_data c doc_id st with
  | (.error e, st1, tr) => (.error e, st1, tr)
  | (.ok data, st1, tr) =>
    let r := format_data_for_gemini data st1
    (.ok (data, r.1), r.2, tr)

/-- `ask_question` (lines 245-265).  Note that the 404 `HTTPException`
raised on line 253 sits inside the surrounding `try`, so the blanket
`except Exception` catches it and re-raises it as a 500 whose detail
embeds the stringified 404 — `/ask` never actually answers 404. -/
def ask_question (c : CodaClient) (gen : String → Except String String)
    (question : String) (st : CacheState) :
    Except HandlerFault AIResponse × CacheState × List CallEv :=
  match resolve_doc_id c configured_doc_name with
  | (.error e, tr) =>
    (.error (.http 500 ("Error processing request: " ++ e)), st, tr)
  | (.ok none, tr) =>
    (.error (.http 500 ("Error processing request: " ++ strOfHTTP 404 "Coda document not found")), st, tr)
  | (.ok (some doc_id), tr) =>
    match buildContext c doc_id st with
    | (.error e, st1, tr2) =>
      (.error (.http 500 ("Error processing request: " ++ e)), st1, tr ++ tr2)
    | (.ok ds, st1, tr2) =>
      let a := ask_gemini_about_data gen ds.2 question
      (.ok ⟨a.1, "success"⟩, st1, tr ++ tr2 ++ a.2)

/-- The usage-hint payload returned for empty input (lines 272-275). -/
def usage_hint : CliqResp :=
  ⟨"Please provide a question. Usage: /coda-ai <your question>", "#FF0000"⟩

/-- The soft error payload of the blanket `except` (lines 301-305); the
leading bytes are the mojibake found verbatim in the source. -/
def cliqErrText (e : String) : String :=
  "‚ùå Error processing your question: " ++ e

/-- `cliq_webhook` (lines 267-305): empty/whitespace-only text
short-circuits with the usage hint; a not-found document and every caught
fault become soft `{text, color}` payloads with the red marker; success
wraps the answer with the green marker.  Every path returns `.ok`. -/
def cliq_webhook (c : CodaClient) (gen : String → Except String String)
    (req : CliqRequest) (st : CacheState) :
    Except HandlerFault CliqResp × CacheState × List CallEv :=
  if pyStrip req.text == "" then
    (.ok usage_hint, st, [])
  else
    match resolve_doc_id c configured_doc_name with
    | (.error e, tr) => (.ok ⟨cliqErrText e, "#FF0000"⟩, st, tr)
    | (.ok none, tr) =>
      (.ok ⟨"‚ùå Coda document not found. Please check the configuration.", "#FF0000"⟩, st, tr)
    | (.ok (some doc_id), tr) =>
      match buildContext c doc_id st with
      | (.error e, st1, tr2) => (.ok ⟨cliqErrText e, "#FF0000"⟩, st1, tr ++ tr2)
      | (.ok ds, st1, tr2) =>
        let a := ask_gemini_about_data gen ds.2 req.text
        (.ok ⟨"ü§ñ **Coda AI Assistant**\n\n**Question:** " ++ req.text ++
                "\n\n**Answer:** " ++ a.1, "#4CAF50"⟩,
          st1, tr ++ tr2 ++ a.2)

/-- `refresh_cache` (lines 307-321): set both globals to `None`, resolve
the configured name, and on success call `get_all_coda_data` (and only
it — the formatter is not invoked).  There is no `try`, so a client fault
propagates unhandled; an unresolved name raises 404. -/
def refresh_cache (c : CodaClient) (st : CacheState) :
    Except HandlerFault RefreshResp × CacheState × List CallEv :=
  let st0 : CacheState := { st with coda_data_cache := none, formatted_data_cache := none }
  match resolve_doc_id c configured_doc_name with
  | (.error e, tr) => (.error (.unhandled e), st0, tr)
  | (.ok none, tr) => (.error (.http 404 "Coda document not found"), st0, tr)
  | (.ok (some doc_id), tr) =>
    match get_all_coda_data c doc_id st0 with
    | (.error e, st1, tr2) => (.error (.unhandled e), st1, tr ++ tr2)
    | (.ok _, st1, tr2) => (.ok ⟨"Cache refreshed successfully", "success"⟩, st1, tr ++ tr2)

structure TableSummary where
  table_name : String
  row_count : Nat
deriving Repr, DecidableEq

structure PageSummary where
  page_name : String
  tables : List TableSummary
deriving Repr, DecidableEq

structure SummaryResp where
  document : String
  total_pages : Nat
  total_tables : Nat
  total_rows : Nat
  pages : List PageSummary
deriving Repr, DecidableEq

/-- The counting of lines 335-351. -/
def mkSummary (data : List PageData) : SummaryResp :=
  { document := configured_doc_name
    total_pages := data.length
    total_tables := (data.map (fun p => p.tables.length)).sum
    total_rows := (data.map (fun p => (p.tables.map (fun t => t.rows.length)).sum)).sum
    pages := data.map (fun p =>
      ⟨p.page_name, p.tables.map (fun t => ⟨t.table_name, t.rows.length⟩)⟩) }

/-- `get_data_summary` (lines 323-364): like `/ask`, its inner 404 is
swallowed by the blanket `except` and resurfaces as a 500; only the
aggregation is run, never the formatter. -/
def get_data_summary (c : CodaClient) (st : CacheState) :
    Except HandlerFault SummaryResp × CacheState × List CallEv :=
  match resolve_doc_id c configured_doc_name with
  | (.error e, tr) =>
    (.error (.http 500 ("Error getting data summary: " ++ e)), st, tr)
  | (.ok none, tr) =>
    (.error (.http 500 ("Error getting data summary: " ++ strOfHTTP 404 "Coda document not found")), st, tr)
  | (.ok (some doc_id), tr) =>
    match get_all_coda_data c doc_id st with
    | (.error e, st1, tr2) =>
      (.error (.http 500 ("Error getting data summary: " ++ e)), st1, tr ++ tr2)
    | (.ok data, st1, tr2) => (.ok (mkSummary data), st1, tr ++ tr2)

/-- A workspace whose listing calls all succeed, with per-table column and
row data; used to state properties of fault-free aggregation passes. -/
structure OkCoda where
  docs : List DocMeta
  pages : List PageMeta
  tables : List TableMeta
  columns : String → List ColumnMeta
  rowsOf : String → List RawRow

/-- The fault-free client induced by an `OkCoda` workspace. -/
def OkCoda.client (o : OkCoda) : CodaClient where
  listDocs := .ok o.docs
  listPages := fun _ => .ok o.pages
  listTables := fun _ => .ok o.tables
  listColumns := fun _ tid => .ok (o.columns tid)
  listRows := fun _ tid => .ok (o.rowsOf tid)

/-! ### Model-level descriptions of a fault-free aggregation pass -/

/-- The rows of table `t` surviving the emptiness filter, in a fault-free
workspace: fetch, substitute column names, filter. -/
def filteredRowsOf (o : OkCoda) (t : TableMeta) : List Row :=
  ((o.rowsOf t.id).map (renameRow (o.columns t.id))).filter rowHasData

/-- The aggregated record of table `t` in a fault-free workspace: present
exactly when some row survives, with columns taken from the first
surviving row. -/
def tableAgg (o : OkCoda) (t : TableMeta) : Option TableData :=
  match filteredRowsOf o t with
  | [] => none
  | r0 :: rs => some ⟨t.name, r0.map Prod.fst, r0 :: rs⟩

/-- The tables listed for page `pid` (parent filter of lines 81-84). -/
def pageTablesOf (o : OkCoda) (pid : String) : List TableMeta :=
  o.tables.filter (fun t => t.parent_id == some pid)

/-- The surviving tables of page `p` in a fault-free workspace, in client
order. -/
def pageAgg (o : OkCoda) (p : PageMeta) : List TableData :=
  (pageTablesOf o p.id).filterMap (tableAgg o)

/-- The model-level result of a fault-free aggregation pass: the pages
with at least one surviving table, in client order, each carrying its
surviving tables. -/
def aggModel (o : OkCoda) : List PageData :=
  (o.pages.filter (fun p => !(pageAgg o p).isEmpty)).map
    (fun p => ⟨p.name, pageAgg o p⟩)

/-- The retention rule exactly as the claim words it — keep a row iff some
value lies outside `{None, "", False, "False"}` — for comparison with the
implementation's `rowHasData`. -/
def specRetains (r : Row) : Bool :=
  r.any (fun kv => !(inEmptySet kv.2))

/-! ### Concrete fixtures -/

/-- A one-row, one-table workspace whose document carries the configured
name. -/
def oRefreshDemo : OkCoda where
  docs := [⟨"doc1", "samdanielvincy\x27s Coda Playground"⟩]
  pages := [⟨"p1", "Page One"⟩]
  tables := [⟨"t1", "Table One", some "p1"⟩]
  columns := fun _ => [⟨"c1", "Name"⟩]
  rowsOf := fun _ => [⟨[("c1", .atom (.sStr "A"))]⟩]

/-- A second such workspace, with a case- and whitespace-perturbed
document name that still resolves. -/
def oRefreshDemo2 : OkCoda where
  docs := [⟨"doc2", "  Samdanielvincy\x27s CODA Playground "⟩]
  pages := [⟨"p9", "Inventory"⟩]
  tables := [⟨"t9", "Stock", some "p9"⟩]
  columns := fun _ => [⟨"c1", "Item"⟩]
  rowsOf := fun _ => [⟨[("c1", .atom (.sStr "Bolt"))]⟩]

/-- A client whose document and page listings succeed but whose table
listing faults. -/
def cTablesFail : CodaClient where
  listDocs := .ok [⟨"d1", "samdanielvincy\x27s Coda Playground"⟩]
  listPages := fun _ => .ok [⟨"p1", "Page One"⟩]
  listTables := fun _ => .error "tables boom"
  listColumns := fun _ _ => .ok []
  listRows := fun _ _ => .ok []

/-- A client where one table's column fetch faults and a second table is
healthy. -/
def cColsFailOne : CodaClient where
  listDocs := .ok []
  listPages := fun _ => .ok [⟨"p1", "Page One"⟩]
  listTables := fun _ => .ok [⟨"tBad", "Bad", some "p1"⟩, ⟨"tGood", "Good", some "p1"⟩]
  listColumns := fun _ tid => if tid == "tBad" then .error "cols boom" else .ok [⟨"c1", "Name"⟩]
  listRows := fun _ _ => .ok [⟨[("c1", .atom (.sStr "A"))]⟩]

/-- A workspace with a healthy table, a table that filters to empty, and a
page whose only table filters to empty. -/
def oAggDemo : OkCoda where
  docs := []
  pages := [⟨"p1", "Page One"⟩, ⟨"p2", "Empty Page"⟩]
  tables := [⟨"tGood", "Good", some "p1"⟩, ⟨"tEmpty", "Empty", some "p1"⟩,
             ⟨"tOther", "Other", some "p2"⟩]
  columns := fun _ => [⟨"c1", "Name"⟩]
  rowsOf := fun tid =>
    if tid == "tGood" then [⟨[("c1", .atom (.sStr "A"))]⟩]
    else [⟨[("c1", .atom (.sStr ""))]⟩]

/-- A workspace whose single row's single value is an empty list: outside
the sentinel set but falsy. -/
def oEmptyRowDemo : OkCoda where
  docs := []
  pages := [⟨"p1", "Page One"⟩]
  tables := [⟨"t1", "Table One", some "p1"⟩]
  columns := fun _ => [⟨"c1", "col"⟩]
  rowsOf := fun _ => [⟨[("c1", .vList [])]⟩]

/-- A client exposing one document named `"my doc"`. -/
def docsOnlyClient : CodaClient where
  listDocs := .ok [⟨"id1", "my doc"⟩]
  listPages := fun _ => .ok []
  listTables := fun _ => .ok []
  listColumns := fun _ _ => .ok []
  listRows := fun _ _ => .ok []

/-- The aggregated list of the §8 demo scenario. -/
def demoPages : List PageData :=
  [⟨"P1", [⟨"T1", ["Name", "Qty"],
    [[("Name", .atom (.sStr "A")), ("Qty", .atom (.sInt 1))]]⟩]⟩]

/-! ### Helper lemmas: cache and context building -/

theorem format_cached (d : List PageData) (st : CacheState) (s : String)
    (h : st.formatted_data_cache = some s) :
    format_data_for_gemini d st = (s, st) := by
  unfold format_data_for_gemini
  rw [h]

theorem format_miss (d : List PageData) (st : CacheState)
    (h : st.formatted_data_cache = none) :
    format_data_for_gemini d st =
      (formatText d, { st with formatted_data_cache := some (formatText d) }) := by
  unfold format_data_for_gemini
  rw [h]

theorem format_state (d : List PageData) (st : CacheState) :
    (format_data_for_gemini d st).2.formatted_data_cache =
        some (format_data_for_gemini d st).1 ∧
      (format_data_for_gemini d st).2.coda_data_cache = st.coda_data_cache := by
  unfold format_data_for_gemini
  rcases hf : st.formatted_data_cache with _ | s <;> simp [hf]

theorem get_all_hit (c : CodaClient) (doc : String) (st : CacheState)
    (d : List PageData) (h : st.coda_data_cache = some d) :
    get_all_coda_data c doc st = (.ok d, st, []) := by
  unfold get_all_coda_data
  rw [h]

theorem get_all_ok_state (c : CodaClient) (doc : String) (st : CacheState)
    (d : List PageData) (st2 : CacheState) (tr : List CallEv)
    (h : get_all_coda_data c doc st = (.ok d, st2, tr)) :
    st2 = { st with coda_data_cache := some d } := by
  rcases st with ⟨cd, fd⟩
  rcases cd with _ | d0
  · rcases hp : c.listPages doc with e | pages
    · simp [get_all_coda_data, get_pages, hp] at h
    · rcases hpp : processPages c doc pages with ⟨res, tr2⟩
      rcases res with e | data
      · simp [get_all_coda_data, get_pages, hp, hpp] at h
      · simp [get_all_coda_data, get_pages, hp, hpp] at h
        obtain ⟨h1, h2, -⟩ := h
        simp [← h2, h1]
  · simp [get_all_coda_data] at h
    obtain ⟨h1, h2, -⟩ := h
    simp [← h1, ← h2]

theorem get_all_error_state (c : CodaClient) (doc : String) (st : CacheState)
    (e : String) (st2 : CacheState) (tr : List CallEv)
    (h : get_all_coda_data c doc st = (.error e, st2, tr)) :
    st2 = st := by
  rcases st with ⟨cd, fd⟩
  rcases cd with _ | d0
  · rcases hp : c.listPages doc with e1 | pages
    · simp [get_all_coda_data, get_pages, hp] at h
      exact h.2.1.symm
    · rcases hpp : processPages c doc pages with ⟨res, tr2⟩
      rcases res with e1 | data
      · simp [get_all_coda_data, get_pages, hp, hpp] at h
        exact h.2.1.symm
      · simp [get_all_coda_data, get_pages, hp, hpp] at h
  · simp [get_all_coda_data] at h

theorem buildContext_hit (c : CodaClient) (doc : String) (st : CacheState)
    (d : List PageData) (s : String)
    (h1 : st.coda_data_cache = some d) (h2 : st.formatted_data_cache = some s) :
    buildContext c doc st = (.ok (d, s), st, []) := by
  unfold buildContext
  rw [get_all_hit c doc st d h1]
  simp [format_cached d st s h2]

theorem buildContext_ok_state (c : CodaClient) (doc : String) (st : CacheState)
    (ds : List PageData × String) (st2 : CacheState) (tr : List CallEv)
    (h : buildContext c doc st = (.ok ds, st2, tr)) :
    st2.coda_data_cache = some ds.1 ∧ st2.formatted_data_cache = some ds.2 := by
  unfold buildContext at h
  rcases hg : get_all_coda_data c doc st with ⟨res, st1, tr1⟩
  rcases res with e | data
  · rw [hg] at h; simp at h
  · rw [hg] at h
    have h1 := congrArg (fun x => x.1) h
    have h2 := congrArg (fun x => x.2.1) h
    simp at h1 h2
    have hfs := format_state data st1
    have hcs := get_all_ok_state c doc st data st1 tr1 hg
    rw [← h1, ← h2]
    refine ⟨?_, hfs.1⟩
    rw [hfs.2, hcs]

theorem buildContext_error_state (c : CodaClient) (doc : String) (st : CacheState)
    (e : String) (st2 : CacheState) (tr : List CallEv)
    (h : buildContext c doc st = (.error e, st2, tr)) :
    st2 = st := by
  unfold buildContext at h
  rcases hg : get_all_coda_data c doc st with ⟨res, st1, tr1⟩
  rcases res with e1 | data
  · rw [hg] at h
    simp at h
    obtain ⟨-, h2, -⟩ := h
    rw [← h2]
    exact get_all_error_state c doc st e1 st1 tr1 hg
  · rw [hg] at h; simp at h

theorem resolve_from_docs_none_iff (target : String) (ds : List DocMeta) :
    resolve_from_docs target ds = none ↔
      ∀ d ∈ ds, normName d.name ≠ normName target := by
  induction ds with
  | nil => simp [resolve_from_docs]
  | cons d0 ds ih =>
    by_cases hm : normName d0.name = normName target
    · simp [resolve_from_docs, hm]
    · simp [resolve_from_docs, hm, ih]

theorem resolve_from_docs_some_iff (target : String) (ds : List DocMeta) (i : String) :
    resolve_from_docs target ds = some i ↔
      ∃ pre d post, ds = pre ++ d :: post ∧ normName d.name = normName target ∧
        i = d.id ∧ ∀ d2 ∈ pre, normName d2.name ≠ normName target := by
  induction ds with
  | nil => simp [resolve_from_docs]
  | cons d0 ds ih =>
    by_cases hm : normName d0.name = normName target
    · have hstep : resolve_from_docs target (d0 :: ds) = some d0.id := by
        simp [resolve_from_docs, hm]
      rw [hstep]
      constructor
      · intro hi
        exact ⟨[], d0, ds, rfl, hm, (Option.some.inj hi).symm, by simp⟩
      · rintro ⟨pre, d, post, hds, hmatch, hi, hpre⟩
        rcases pre with _ | ⟨p0, pre2⟩
        · simp at hds
          rw [hi, hds.1]
        · simp at hds
          exact absurd (hds.1 ▸ hm) (hpre p0 (by simp))
    · have hstep : resolve_from_docs target (d0 :: ds) = resolve_from_docs target ds := by
        simp [resolve_from_docs, hm]
      rw [hstep, ih]
      constructor
      · rintro ⟨pre, d, post, hds, hmatch, hi, hpre⟩
        refine ⟨d0 :: pre, d, post, by rw [hds]; rfl, hmatch, hi, ?_⟩
        intro d2 hd2
        rcases List.mem_cons.mp hd2 with h0 | h0
        · rw [h0]; exact hm
        · exact hpre d2 h0
      · rintro ⟨pre, d, post, hds, hmatch, hi, hpre⟩
        rcases pre with _ | ⟨p0, pre2⟩
        · simp at hds
          exact absurd (hds.1 ▸ hmatch) hm
        · simp at hds
          exact ⟨pre2, d, post, hds.2, hmatch, hi,
            fun d2 hd2 => hpre d2 (List.mem_cons_of_mem p0 hd2)⟩

/-! ### Claim theorems -/

/-- C10: whenever the formatted-text cache field is set,
`format_data_for_gemini` returns the cached string for every input: any
two aggregated-page lists produce identical output in that state, and the
cache state is left unchanged. -/
theorem formatter_cache_ignores_input (d1 d2 : List PageData) (st : CacheState)
    (s : String) (h : st.formatted_data_cache = some s) :
    format_data_for_gemini d1 st = (s, st) ∧
    (format_data_for_gemini d1 st).1 = (format_data_for_gemini d2 st).1 := by
  rw [format_cached d1 st s h, format_cached d2 st s h]
  exact ⟨rfl, rfl⟩

/-- Witness for C10 at a concrete cached state and two different inputs. -/
theorem formatter_cache_ignores_input_witness :
    format_data_for_gemini demoPages ⟨none, some "cached"⟩ =
        ("cached", ⟨none, some "cached"⟩) ∧
    (format_data_for_gemini demoPages ⟨none, some "cached"⟩).1 =
      (format_data_for_gemini [] ⟨none, some "cached"⟩).1 :=
  formatter_cache_ignores_input demoPages [] ⟨none, some "cached"⟩ "cached" rfl

/-- C5: with both cache fields set, a context build returns the cached
pair, issues no workspace-client calls and leaves the state unchanged;
moreover immediately after any successful context build, a second build
(under any client whatsoever, so necessarily without upstream fetches)
returns the same pair with an empty call trace. -/
theorem cache_hit_no_calls (c c2 : CodaClient) (doc doc2 : String) (st : CacheState) :
    (∀ d s, st.coda_data_cache = some d → st.formatted_data_cache = some s →
        buildContext c doc st = (.ok (d, s), st, [])) ∧
    (∀ ds st2 tr, buildContext c doc st = (.ok ds, st2, tr) →
        buildContext c2 doc2 st2 = (.ok ds, st2, [])) := by
  constructor
  · exact fun d s h1 h2 => buildContext_hit c doc st d s h1 h2
  · intro ds st2 tr h
    obtain ⟨h1, h2⟩ := buildContext_ok_state c doc st ds st2 tr h
    exact buildContext_hit c2 doc2 st2 ds.1 ds.2 h1 h2

/-- Witness for C5: even a client whose every listing faults is never
contacted when both cache fields are set. -/
theorem cache_hit_no_calls_witness :
    buildContext cTablesFail "d1" ⟨some [], some "ctx"⟩ =
      (.ok ([], "ctx"), ⟨some [], some "ctx"⟩, []) :=
  (cache_hit_no_calls cTablesFail cTablesFail "d1" "d1"
    ⟨some [], some "ctx"⟩).1 [] "ctx" rfl rfl

/-- C7: document resolution normalises names by whitespace-trim and
lowercasing; it returns the id of the first document in listing order
whose normalised name equals the normalised target, and no id when no
document matches. -/
theorem doc_resolution_first_match (c : CodaClient) (ds : List DocMeta)
    (target : String) (h : c.listDocs = .ok ds) :
    resolve_doc_id c target = (.ok (resolve_from_docs target ds), [.docs]) ∧
    (resolve_from_docs target ds = none ↔
      ∀ d ∈ ds, normName d.name ≠ normName target) ∧
    (∀ i, resolve_from_docs target ds = some i ↔
      ∃ pre d post, ds = pre ++ d :: post ∧ normName d.name = normName target ∧
        i = d.id ∧ ∀ d2 ∈ pre, normName d2.name ≠ normName target) := by
  refine ⟨?_, resolve_from_docs_none_iff target ds,
    fun i => resolve_from_docs_some_iff target ds i⟩
  unfold resolve_doc_id get_all_docs
  rw [h]

/-- Witness for C7: `"My Doc "` resolves against a listing containing
`"my doc"` (case-insensitive, whitespace-trimmed fixture of the spec). -/
theorem doc_resolution_first_match_witness :
    resolve_doc_id docsOnlyClient "My Doc " = (.ok (some "id1"), [.docs]) := by
  have h := (doc_resolution_first_match docsOnlyClient [⟨"id1", "my doc"⟩]
    "My Doc " rfl).1
  rw [h]
  rfl

/-- C1 is refuted by a row whose only value is an empty list: the value is
outside {None, "", False, "False"} (so the claim retains the row), yet the
code discards it — `any` also tests Python truthiness — and the
aggregation of a workspace holding exactly that row is empty. -/
theorem emptiness_filter_counterexample :
    specRetains [("col", .vList [])] = true ∧
    rowHasData [("col", .vList [])] = false ∧
    (get_all_coda_data oEmptyRowDemo.client "d1" ⟨none, none⟩).1 = .ok [] :=
  ⟨rfl, rfl, rfl⟩

/-- C1 (amended): the aggregation pass retains a row iff at least one of
its values is Python-truthy in addition to lying outside
{None, "", False, "False"}; rows with only falsy or sentinel values are
discarded. -/
theorem emptiness_filter_amended (rows : List Row) (r : Row) :
    r ∈ rows.filter rowHasData ↔
      r ∈ rows ∧ ∃ kv ∈ r, inEmptySet kv.2 = false ∧ truthy kv.2 = true := by
  simp [List.mem_filter, rowHasData, List.any_eq_true, Bool.and_eq_true,
    Bool.not_eq_true']

/-! ### Formatter refinement: the incremental build equals the
compositional rendering -/

theorem appendRows_eq (rs : List Row) (i : Nat) (acc : String) :
    appendRows acc i rs = acc ++ renderRows i rs := by
  induction rs generalizing acc i with
  | nil => simp [appendRows, renderRows]
  | cons r rs ih =>
    simp [appendRows, renderRows, ih, String.append_assoc]

theorem appendTables_eq (ts : List TableData) (acc : String) :
    appendTables acc ts = acc ++ joinStrings (ts.map renderTable) := by
  induction ts generalizing acc with
  | nil => simp [appendTables, joinStrings]
  | cons t ts ih =>
    simp [appendTables, joinStrings, ih, appendRows_eq, renderTable,
      String.append_assoc]

theorem appendPages_eq (ps : List PageData) (acc : String) :
    appendPages acc ps = acc ++ joinStrings (ps.map renderPage) := by
  induction ps generalizing acc with
  | nil => simp [appendPages, joinStrings]
  | cons p ps ih =>
    simp [appendPages, joinStrings, ih, appendTables_eq, renderPage,
      String.append_assoc]

theorem formatText_eq_renderAll (d : List PageData) :
    formatText d = renderAll d := by
  unfold formatText renderAll
  rw [appendPages_eq]

/-- C9: on a cache miss the formatter produces exactly the compositional
rendering `renderAll` — fixed banner, one section per page headed by the
page name, per table a block with its heading and comma-joined column
list, then numbered row lines (the `k: v` pairs of non-sentinel values
joined by " | ") with numbering restarting at 1 for every table — stores
it, and an immediately repeated call returns the byte-identical string
with the state unchanged. -/
theorem formatter_renders_structure (d : List PageData) (st : CacheState)
    (h : st.formatted_data_cache = none) :
    format_data_for_gemini d st =
      (renderAll d, { st with formatted_data_cache := some (renderAll d) }) ∧
    format_data_for_gemini d { st with formatted_data_cache := some (renderAll d) } =
      (renderAll d, { st with formatted_data_cache := some (renderAll d) }) := by
  constructor
  · rw [format_miss d st h, formatText_eq_renderAll]
  · exact format_cached _ _ _ rfl

/-- Witness for C9 on the §8 demo scenario, evaluated to the literal
expected text. -/
theorem formatter_renders_structure_witness :
    format_data_for_gemini demoPages ⟨none, none⟩ =
      ("CODA DOCUMENT DATA:\n\n=== PAGE: P1 ===\n\nTABLE: T1\nColumns: Name, Qty\n1. Name: A | Qty: 1\n\n",
        ⟨none,
          some "CODA DOCUMENT DATA:\n\n=== PAGE: P1 ===\n\nTABLE: T1\nColumns: Name, Qty\n1. Name: A | Qty: 1\n\n"⟩) := by
  have h := (formatter_renders_structure demoPages ⟨none, none⟩ rfl).1
  rw [h]
  rfl

/-! ### Fault-free aggregation: shape lemmas -/

theorem processTable_okClient (o : OkCoda) (doc : String) (t : TableMeta) :
    processTable (o.client) doc t =
      (tableAgg o t, [.columns doc t.id, .rows doc t.id]) := rfl

theorem processTables_fst (c : CodaClient) (doc : String) (ts : List TableMeta) :
    (processTables c doc ts).1 = ts.filterMap (fun t => (processTable c doc t).1) := by
  induction ts with
  | nil => rfl
  | cons t ts ih =>
    rcases h : (processTable c doc t).1 with _ | td <;>
      simp [processTables, List.filterMap_cons, h, ih]

theorem processPage_okClient (o : OkCoda) (doc : String) (p : PageMeta) :
    (processPage (o.client) doc p).1 =
      .ok (if (pageAgg o p).isEmpty then none else some ⟨p.name, pageAgg o p⟩) := by
  have ht : get_tables_created_on_page (o.client) doc p.id =
      (.ok (pageTablesOf o p.id), [.tables doc]) := rfl
  unfold processPage
  rw [ht]
  simp only [processTables_fst, processTable_okClient, pageAgg]

theorem processPages_okClient_fst (o : OkCoda) (doc : String) (ps : List PageMeta) :
    (processPages (o.client) doc ps).1 =
      .ok (ps.filterMap (fun p =>
        if (pageAgg o p).isEmpty then none else some ⟨p.name, pageAgg o p⟩)) := by
  induction ps with
  | nil => rfl
  | cons p ps ih =>
    rcases h1 : processPage (o.client) doc p with ⟨res1, tr1⟩
    rcases h2 : processPages (o.client) doc ps with ⟨res2, tr2⟩
    have e1 := processPage_okClient o doc p
    rw [h1] at e1
    have e2 := ih
    rw [h2] at e2
    simp only at e1 e2
    subst e1
    subst e2
    by_cases hif : pageAgg o p = [] <;>
      simp [processPages, h1, h2, List.filterMap_cons, hif]

theorem filterMap_if_isEmpty (ps : List PageMeta) (f : PageMeta → List TableData) :
    ps.filterMap (fun p =>
        if f p = [] then none else some (PageData.mk p.name (f p))) =
      (ps.filter (fun p => !(f p).isEmpty)).map (fun p => PageData.mk p.name (f p)) := by
  induction ps with
  | nil => rfl
  | cons p ps ih =>
    by_cases h : f p = [] <;>
      simpa [List.filterMap_cons, List.filter_cons, h] using ih

theorem get_all_okClient (o : OkCoda) (doc : String) (st : CacheState)
    (h : st.coda_data_cache = none) :
    ∃ tr, get_all_coda_data (o.client) doc st =
      (.ok (aggModel o),
        { st with coda_data_cache := some (aggModel o) }, tr) := by
  rcases st with ⟨cd, fd⟩
  have hcd : cd = none := h
  subst hcd
  rcases hpp : processPages (o.client) doc o.pages with ⟨res, tr2⟩
  have e := processPages_okClient_fst o doc o.pages
  rw [hpp] at e
  simp only at e
  subst e
  refine ⟨CallEv.pages doc :: tr2, ?_⟩
  have hlp : (OkCoda.client o).listPages doc = .ok o.pages := rfl
  simp [get_all_coda_data, get_pages, hlp, hpp, aggModel, filterMap_if_isEmpty]

theorem tableAgg_isSome (o : OkCoda) (t : TableMeta) :
    (tableAgg o t).isSome = !(filteredRowsOf o t).isEmpty := by
  unfold tableAgg
  rcases h : filteredRowsOf o t with _ | ⟨r0, rs⟩ <;> simp

theorem tableAgg_some_spec (o : OkCoda) (t : TableMeta) (td : TableData)
    (h : tableAgg o t = some td) :
    td.table_name = t.name ∧ td.rows = filteredRowsOf o t ∧
      ∃ r0 rs, td.rows = r0 :: rs ∧ td.columns = r0.map Prod.fst := by
  unfold tableAgg at h
  rcases hf : filteredRowsOf o t with _ | ⟨r0, rs⟩ <;> rw [hf] at h
  · simp at h
  · have := Option.some.inj h
    subst this
    exact ⟨rfl, rfl, r0, rs, rfl, rfl⟩

/-- C6: over a fault-free workspace and a cache miss, aggregation
succeeds, stores its result, and the result is exactly: the pages with at
least one surviving table, in client order, each carrying its surviving
tables in client order; every listed table contributes iff some of its
rows survive the emptiness filter; and a surviving table's column list is
the ordered key list of its first surviving row. -/
theorem aggregation_shape (o : OkCoda) (doc : String) (st : CacheState)
    (h : st.coda_data_cache = none) :
    ∃ data tr,
      get_all_coda_data (o.client) doc st =
        (.ok data, { st with coda_data_cache := some data }, tr) ∧
      data = (o.pages.filter (fun p => !(pageAgg o p).isEmpty)).map
          (fun p => ⟨p.name, pageAgg o p⟩) ∧
      (∀ pd ∈ data, pd.tables ≠ []) ∧
      (∀ pd ∈ data, ∀ td ∈ pd.tables, td.rows ≠ [] ∧
        ∃ r0 rs, td.rows = r0 :: rs ∧ td.columns = r0.map Prod.fst) ∧
      (∀ t : TableMeta, (tableAgg o t).isSome = !(filteredRowsOf o t).isEmpty) ∧
      (∀ t td, tableAgg o t = some td → td.rows = filteredRowsOf o t) := by
  obtain ⟨tr, heq⟩ := get_all_okClient o doc st h
  refine ⟨_, tr, heq, rfl, ?_, ?_, tableAgg_isSome o,
    fun t td ht => (tableAgg_some_spec o t td ht).2.1⟩
  · intro pd hpd
    obtain ⟨p, hp, rfl⟩ := List.mem_map.mp hpd
    have hne := (List.mem_filter.mp hp).2
    simp at hne
    intro hnil
    exact hne (by simpa using hnil)
  · intro pd hpd td htd
    obtain ⟨p, hp, rfl⟩ := List.mem_map.mp hpd
    obtain ⟨t, ht, hsome⟩ := List.mem_filterMap.mp htd
    obtain ⟨-, -, r0, rs, hcons, hcols⟩ := tableAgg_some_spec o t td hsome
    exact ⟨by rw [hcons]; simp, r0, rs, hcons, hcols⟩

/-- Witness for C6 on a workspace with a healthy table, a table filtering
to empty (omitted), and a page whose only table filters to empty
(omitted). -/
theorem aggregation_shape_witness :
    (get_all_coda_data (oAggDemo.client) "d1" ⟨none, none⟩).1 =
      .ok [⟨"Page One", [⟨"Good", ["Name"], [[("Name", .atom (.sStr "A"))]]⟩]⟩] := by
  obtain ⟨data, tr, heq, hdata, -⟩ := aggregation_shape oAggDemo "d1" ⟨none, none⟩ rfl
  rw [heq, hdata]
  rfl

/-- C4 is refuted: a fault in the per-page table-listing call aborts the
whole aggregation pass even though both the document listing and the page
listing succeed. -/
theorem table_fault_scope_counterexample :
    cTablesFail.listDocs = .ok [⟨"d1", "samdanielvincy\x27s Coda Playground"⟩] ∧
    cTablesFail.listPages "d1" = .ok [⟨"p1", "Page One"⟩] ∧
    (get_all_coda_data cTablesFail "d1" ⟨none, none⟩).1 = .error "tables boom" :=
  ⟨rfl, rfl, rfl⟩

theorem processPage_ok_of_tables (c : CodaClient) (doc : String)
    (ts : List TableMeta) (ht : c.listTables doc = .ok ts) (p : PageMeta) :
    ∃ opd tr, processPage c doc p = (.ok opd, tr) := by
  unfold processPage get_tables_created_on_page
  rw [ht]
  exact ⟨_, _, rfl⟩

theorem processPages_ok_of_tables (c : CodaClient) (doc : String)
    (ts : List TableMeta) (ht : c.listTables doc = .ok ts) (ps : List PageMeta) :
    ∃ res tr, processPages c doc ps = (.ok res, tr) := by
  induction ps with
  | nil => exact ⟨[], [], rfl⟩
  | cons p ps ih =>
    obtain ⟨opd, tr1, h1⟩ := processPage_ok_of_tables c doc ts ht p
    obtain ⟨res, tr2, h2⟩ := ih
    exact ⟨opd.toList ++ res, tr1 ++ tr2, by simp [processPages, h1, h2]⟩

/-- C4 (amended): a fault while fetching a single table's columns or rows
only skips that table, and with the page listing and the per-page table
listing succeeding the pass always succeeds and stores its result — but
the table-listing call, like the page listing, is outside the per-table
protection, so its fault aborts the pass. -/
theorem table_fault_scope_amended (c : CodaClient) (doc : String) (st : CacheState)
    (ps : List PageMeta) (ts : List TableMeta)
    (hst : st.coda_data_cache = none)
    (hp : c.listPages doc = .ok ps) (ht : c.listTables doc = .ok ts) :
    (∃ data tr, get_all_coda_data c doc st =
        (.ok data, { st with coda_data_cache := some data }, tr)) ∧
    (∀ t e, c.listColumns doc t.id = .error e → (processTable c doc t).1 = none) ∧
    (∀ t cols e, c.listColumns doc t.id = .ok cols →
        c.listRows doc t.id = .error e → (processTable c doc t).1 = none) := by
  refine ⟨?_, ?_, ?_⟩
  · rcases st with ⟨cd, fd⟩
    have hcd : cd = none := hst
    subst hcd
    obtain ⟨res, tr2, h2⟩ := processPages_ok_of_tables c doc ts ht ps
    exact ⟨res, CallEv.pages doc :: tr2,
      by simp [get_all_coda_data, get_pages, hp, h2]⟩
  · intro t e he
    unfold processTable get_column_map
    rw [he]
  · intro t cols e hc he
    unfold processTable get_column_map get_rows
    rw [hc, he]

/-- Witness for C4: one table's column fetch faults (table skipped), the
sibling table is healthy, and the pass succeeds. -/
theorem table_fault_scope_amended_witness :
    (∃ data tr, get_all_coda_data cColsFailOne "d1" ⟨none, none⟩ =
        (.ok data,
          { CacheState.mk none none with coda_data_cache := some data }, tr)) ∧
    (processTable cColsFailOne "d1" ⟨"tBad", "Bad", some "p1"⟩).1 = none := by
  have h := table_fault_scope_amended cColsFailOne "d1" ⟨none, none⟩
    [⟨"p1", "Page One"⟩] [⟨"tBad", "Bad", some "p1"⟩, ⟨"tGood", "Good", some "p1"⟩]
    rfl rfl rfl
  exact ⟨h.1, h.2.1 ⟨"tBad", "Bad", some "p1"⟩ "cols boom" rfl⟩

/-! ### Handler state lemmas -/

theorem ask_ok_state (c : CodaClient) (gen : String → Except String String)
    (q : String) (st : CacheState) :
    ∀ r st2 tr, ask_question c gen q st = (.ok r, st2, tr) →
      st2.coda_data_cache.isSome = true ∧ st2.formatted_data_cache.isSome = true := by
  intro r st2 tr h
  unfold ask_question at h
  rcases hd : c.listDocs with e | ds <;>
    simp only [resolve_doc_id, get_all_docs, hd] at h
  · simp at h
  · rcases hres : resolve_from_docs configured_doc_name ds with _ | did <;>
      simp only [hres] at h
    · simp at h
    · rcases hb : buildContext c did st with ⟨bres, st1, tr1⟩
      rcases bres with e | dsp
      · rw [hb] at h; simp at h
      · rw [hb] at h
        simp at h
        obtain ⟨-, hst, -⟩ := h
        have hbo := buildContext_ok_state c did st dsp st1 tr1 hb
        rw [← hst, hbo.1, hbo.2]
        exact ⟨rfl, rfl⟩

theorem ask_error_state (c : CodaClient) (gen : String → Except String String)
    (q : String) (st : CacheState) :
    ∀ e st2 tr, ask_question c gen q st = (.error e, st2, tr) → st2 = st := by
  intro e st2 tr h
  unfold ask_question at h
  rcases hd : c.listDocs with e1 | ds <;>
    simp only [resolve_doc_id, get_all_docs, hd] at h
  · simp at h
    exact h.2.1.symm
  · rcases hres : resolve_from_docs configured_doc_name ds with _ | did <;>
      simp only [hres] at h
    · simp at h
      exact h.2.1.symm
    · rcases hb : buildContext c did st with ⟨bres, st1, tr1⟩
      rcases bres with e1 | dsp
      · rw [hb] at h
        simp at h
        rw [← h.2.1]
        exact buildContext_error_state c did st e1 st1 tr1 hb
      · rw [hb] at h; simp at h

theorem cliq_is_ok (c : CodaClient) (gen : String → Except String String)
    (req : CliqRequest) (st : CacheState) :
    ∀ res st2 tr, cliq_webhook c gen req st = (res, st2, tr) →
      ∃ resp, res = .ok resp := by
  intro res st2 tr h
  unfold cliq_webhook at h
  by_cases htrim : pyStrip req.text = ""
  · simp only [htrim] at h
    simp at h
    exact ⟨usage_hint, h.1.symm⟩
  · have htrim2 : (pyStrip req.text == "") = false := by simpa using htrim
    simp only [htrim2, Bool.false_eq_true, if_false] at h
    rcases hd : c.listDocs with e | ds <;>
      simp only [resolve_doc_id, get_all_docs, hd] at h
    · exact ⟨_, ((Prod.mk.injEq _ _ _ _).mp h).1.symm⟩
    · rcases hres : resolve_from_docs configured_doc_name ds with _ | did <;>
        simp only [hres] at h
      · exact ⟨_, ((Prod.mk.injEq _ _ _ _).mp h).1.symm⟩
      · rcases hb : buildContext c did st with ⟨bres, st1, tr1⟩
        rcases bres with e | dsp <;> rw [hb] at h <;>
          exact ⟨_, ((Prod.mk.injEq _ _ _ _).mp h).1.symm⟩

theorem cliq_ok_state (c : CodaClient) (gen : String → Except String String)
    (req : CliqRequest) (st : CacheState) :
    ∀ resp st2 tr, cliq_webhook c gen req st = (.ok resp, st2, tr) →
      (resp.color = "#4CAF50" →
        st2.coda_data_cache.isSome = true ∧ st2.formatted_data_cache.isSome = true) ∧
      (resp.color = "#FF0000" → st2 = st) := by
  intro resp st2 tr h
  unfold cliq_webhook at h
  by_cases htrim : pyStrip req.text = ""
  · simp only [htrim] at h
    simp at h
    obtain ⟨h1, h2, -⟩ := h
    rw [← h1, ← h2]
    exact ⟨fun hc => by simp [usage_hint] at hc, fun _ => rfl⟩
  · have htrim2 : (pyStrip req.text == "") = false := by simpa using htrim
    simp only [htrim2, Bool.false_eq_true, if_false] at h
    rcases hd : c.listDocs with e | ds <;>
      simp only [resolve_doc_id, get_all_docs, hd] at h
    · simp at h
      obtain ⟨h1, h2, -⟩ := h
      rw [← h1, ← h2]
      exact ⟨fun hc => by simp at hc, fun _ => rfl⟩
    · rcases hres : resolve_from_docs configured_doc_name ds with _ | did <;>
        simp only [hres] at h
      · simp at h
        obtain ⟨h1, h2, -⟩ := h
        rw [← h1, ← h2]
        exact ⟨fun hc => by simp at hc, fun _ => rfl⟩
      · rcases hb : buildContext c did st with ⟨bres, st1, tr1⟩
        rcases bres with e | dsp <;> rw [hb] at h <;> simp at h
        · obtain ⟨h1, h2, -⟩ := h
          rw [← h1, ← h2]
          refine ⟨fun hc => by simp at hc, fun _ => ?_⟩
          exact buildContext_error_state c did st e st1 tr1 hb
        · obtain ⟨h1, h2, -⟩ := h
          have hbo := buildContext_ok_state c did st dsp st1 tr1 hb
          rw [← h1, ← h2]
          refine ⟨fun _ => ?_, fun hc => by simp at hc⟩
          rw [hbo.1, hbo.2]
          exact ⟨rfl, rfl⟩

theorem refresh_ok_state (c : CodaClient) (st : CacheState) :
    ∀ r st2 tr, refresh_cache c st = (.ok r, st2, tr) →
      st2.coda_data_cache.isSome = true ∧ st2.formatted_data_cache = none := by
  intro r st2 tr h
  unfold refresh_cache at h
  rcases hd : c.listDocs with e | ds <;>
    simp only [resolve_doc_id, get_all_docs, hd] at h
  · simp at h
  · rcases hres : resolve_from_docs configured_doc_name ds with _ | did <;>
      simp only [hres] at h
    · simp at h
    · rcases hg : get_all_coda_data c did
          { st with coda_data_cache := none, formatted_data_cache := none } with
        ⟨gres, st1, tr1⟩
      rcases gres with e | data <;> rw [hg] at h <;> simp at h
      obtain ⟨-, h2, -⟩ := h
      have hgs := get_all_ok_state c did _ data st1 tr1 hg
      rw [← h2, hgs]
      exact ⟨rfl, rfl⟩

theorem refresh_error_state (c : CodaClient) (st : CacheState) :
    ∀ e st2 tr, refresh_cache c st = (.error e, st2, tr) → st2 = ⟨none, none⟩ := by
  intro e st2 tr h
  unfold refresh_cache at h
  rcases hd : c.listDocs with e1 | ds <;>
    simp only [resolve_doc_id, get_all_docs, hd] at h
  · simp at h
    exact h.2.1.symm
  · rcases hres : resolve_from_docs configured_doc_name ds with _ | did <;>
      simp only [hres] at h
    · simp at h
      exact h.2.1.symm
    · rcases hg : get_all_coda_data c did
          { st with coda_data_cache := none, formatted_data_cache := none } with
        ⟨gres, st1, tr1⟩
      rcases gres with e1 | data <;> rw [hg] at h <;> simp at h
      rw [← h.2.1]
      exact get_all_error_state c did _ e1 st1 tr1 hg

theorem summary_ok_state (c : CodaClient) (st : CacheState) :
    ∀ r st2 tr, get_data_summary c st = (.ok r, st2, tr) →
      st2.coda_data_cache.isSome = true ∧
        st2.formatted_data_cache = st.formatted_data_cache := by
  intro r st2 tr h
  unfold get_data_summary at h
  rcases hd : c.listDocs with e | ds <;>
    simp only [resolve_doc_id, get_all_docs, hd] at h
  · simp at h
  · rcases hres : resolve_from_docs configured_doc_name ds with _ | did <;>
      simp only [hres] at h
    · simp at h
    · rcases hg : get_all_coda_data c did st with ⟨gres, st1, tr1⟩
      rcases gres with e | data <;> rw [hg] at h <;> simp at h
      obtain ⟨-, h2, -⟩ := h
      have hgs := get_all_ok_state c did st data st1 tr1 hg
      rw [← h2, hgs]
      exact ⟨rfl, rfl⟩

theorem summary_error_state (c : CodaClient) (st : CacheState) :
    ∀ e st2 tr, get_data_summary c st = (.error e, st2, tr) → st2 = st := by
  intro e st2 tr h
  unfold get_data_summary at h
  rcases hd : c.listDocs with e1 | ds <;>
    simp only [resolve_doc_id, get_all_docs, hd] at h
  · simp at h
    exact h.2.1.symm
  · rcases hres : resolve_from_docs configured_doc_name ds with _ | did <;>
      simp only [hres] at h
    · simp at h
      exact h.2.1.symm
    · rcases hg : get_all_coda_data c did st with ⟨gres, st1, tr1⟩
      rcases gres with e1 | data <;> rw [hg] at h <;> simp at h
      rw [← h.2.1]
      exact get_all_error_state c did st e1 st1 tr1 hg

/-- C2 is refuted: a successfully completed refresh operation leaves
exactly one cache field set — the aggregated-page list — while the
formatted-text field remains unset. -/
theorem cache_pairing_counterexample :
    (refresh_cache oRefreshDemo.client ⟨none, none⟩).1 =
      .ok ⟨"Cache refreshed successfully", "success"⟩ ∧
    (refresh_cache oRefreshDemo.client ⟨none, none⟩).2.1.coda_data_cache =
      some [⟨"Page One", [⟨"Table One", ["Name"], [[("Name", .atom (.sStr "A"))]]⟩]⟩] ∧
    (refresh_cache oRefreshDemo.client ⟨none, none⟩).2.1.formatted_data_cache =
      none :=
  ⟨rfl, rfl, rfl⟩

/-- C2 (amended): a completed `/ask` or `/cliq/ask` operation preserves
the pairing — success leaves both fields set, failure (or a soft-error
payload) leaves the state unchanged — but a successful refresh leaves
exactly the aggregated-list field set with the formatted text unset, a
failed refresh leaves both cleared, and `/data-summary` sets the
aggregated-list field while never touching the formatted-text field. -/
theorem cache_pairing_amended (c : CodaClient) (gen : String → Except String String)
    (q : String) (req : CliqRequest) (st : CacheState) :
    (∀ r st2 tr, ask_question c gen q st = (.ok r, st2, tr) →
      st2.coda_data_cache.isSome = true ∧ st2.formatted_data_cache.isSome = true) ∧
    (∀ e st2 tr, ask_question c gen q st = (.error e, st2, tr) → st2 = st) ∧
    (∀ resp st2 tr, cliq_webhook c gen req st = (.ok resp, st2, tr) →
      (resp.color = "#4CAF50" →
        st2.coda_data_cache.isSome = true ∧ st2.formatted_data_cache.isSome = true) ∧
      (resp.color = "#FF0000" → st2 = st)) ∧
    (∀ r st2 tr, refresh_cache c st = (.ok r, st2, tr) →
      st2.coda_data_cache.isSome = true ∧ st2.formatted_data_cache = none) ∧
    (∀ e st2 tr, refresh_cache c st = (.error e, st2, tr) → st2 = ⟨none, none⟩) ∧
    (∀ r st2 tr, get_data_summary c st = (.ok r, st2, tr) →
      st2.coda_data_cache.isSome = true ∧
        st2.formatted_data_cache = st.formatted_data_cache) ∧
    (∀ e st2 tr, get_data_summary c st = (.error e, st2, tr) → st2 = st) :=
  ⟨ask_ok_state c gen q st, ask_error_state c gen q st, cliq_ok_state c gen req st,
    refresh_ok_state c st, refresh_error_state c st, summary_ok_state c st,
    summary_error_state c st⟩

/-- Witness for C2 (amended) at concrete inputs: a successful `/ask` run
sets both fields, and a successful refresh run sets the aggregated list
only. -/
theorem cache_pairing_amended_witness :
    ((ask_question oRefreshDemo.client (fun _ => .ok "ans") "q"
        ⟨none, none⟩).2.1.coda_data_cache.isSome = true ∧
      (ask_question oRefreshDemo.client (fun _ => .ok "ans") "q"
        ⟨none, none⟩).2.1.formatted_data_cache.isSome = true) ∧
    ((refresh_cache oRefreshDemo.client ⟨some [], some "stale"⟩).2.1.coda_data_cache.isSome
        = true ∧
      (refresh_cache oRefreshDemo.client
        ⟨some [], some "stale"⟩).2.1.formatted_data_cache = none) := by
  have h := cache_pairing_amended oRefreshDemo.client (fun _ => .ok "ans") "q"
    ⟨"q", none, none, none⟩ ⟨none, none⟩
  have h2 := cache_pairing_amended oRefreshDemo.client (fun _ => .ok "ans") "q"
    ⟨"q", none, none, none⟩ ⟨some [], some "stale"⟩
  refine ⟨h.1 _ _ _ rfl, h2.2.2.2.1 _ _ _ rfl⟩

/-- C3 is refuted: after a refresh in which the configured document name
resolves and the rebuild succeeds, only the aggregated-list field is set;
the formatted-text field has been cleared and is not rebuilt. -/
theorem refresh_rebuild_counterexample :
    (refresh_cache oRefreshDemo2.client ⟨some [], some "stale"⟩).1 =
      .ok ⟨"Cache refreshed successfully", "success"⟩ ∧
    (refresh_cache oRefreshDemo2.client ⟨some [], some "stale"⟩).2.1.formatted_data_cache =
      none ∧
    (refresh_cache oRefreshDemo2.client ⟨some [], some "stale"⟩).2.1.coda_data_cache =
      some [⟨"Inventory", [⟨"Stock", ["Item"], [[("Item", .atom (.sStr "Bolt"))]]⟩]⟩] :=
  ⟨rfl, rfl, rfl⟩

/-- C3 (amended): refresh clears both fields unconditionally and eagerly
rebuilds only the aggregation through the same get-or-build path: when
the configured name resolves and the pass succeeds the aggregated-list
field is set while the formatted-text field stays unset (rebuilt lazily by
the next formatting call); when the name does not resolve, refresh
surfaces the 404 not-found error with the cache left cleared. -/
theorem refresh_rebuild_amended (c : CodaClient) (st : CacheState) :
    (∀ ds, c.listDocs = .ok ds →
      resolve_from_docs configured_doc_name ds = none →
      refresh_cache c st =
        (.error (.http 404 "Coda document not found"), ⟨none, none⟩, [.docs])) ∧
    (∀ ds did data st2 tr, c.listDocs = .ok ds →
      resolve_from_docs configured_doc_name ds = some did →
      get_all_coda_data c did ⟨none, none⟩ = (.ok data, st2, tr) →
      refresh_cache c st =
          (.ok ⟨"Cache refreshed successfully", "success"⟩, st2, .docs :: tr) ∧
        st2.coda_data_cache = some data ∧ st2.formatted_data_cache = none) := by
  constructor
  · intro ds hdocs hres
    unfold refresh_cache
    simp [resolve_doc_id, get_all_docs, hdocs, hres]
  · intro ds did data st2 tr hdocs hres hga
    have hgs := get_all_ok_state c did ⟨none, none⟩ data st2 tr hga
    refine ⟨?_, by rw [hgs], by rw [hgs]⟩
    unfold refresh_cache
    simp [resolve_doc_id, get_all_docs, hdocs, hres, hga]

/-- Witness for C3 (amended): a concrete successful refresh, evaluated to
its literal result, state and call trace. -/
theorem refresh_rebuild_amended_witness :
    refresh_cache oRefreshDemo.client ⟨some [], some "stale"⟩ =
      (.ok ⟨"Cache refreshed successfully", "success"⟩,
        ⟨some [⟨"Page One", [⟨"Table One", ["Name"], [[("Name", .atom (.sStr "A"))]]⟩]⟩],
          none⟩,
        [.docs, .pages "doc1", .tables "doc1", .columns "doc1" "t1",
          .rows "doc1" "t1"]) := by
  have h := (refresh_rebuild_amended oRefreshDemo.client ⟨some [], some "stale"⟩).2
    [⟨"doc1", "samdanielvincy\x27s Coda Playground"⟩] "doc1"
    [⟨"Page One", [⟨"Table One", ["Name"], [[("Name", .atom (.sStr "A"))]]⟩]⟩]
    ⟨some [⟨"Page One", [⟨"Table One", ["Name"], [[("Name", .atom (.sStr "A"))]]⟩]⟩], none⟩
    [.pages "doc1", .tables "doc1", .columns "doc1" "t1", .rows "doc1" "t1"]
    rfl rfl rfl
  exact h.1

/-- C8: `/cliq/ask` never raises — every run returns an `.ok` payload;
empty or whitespace-only text short-circuits to the usage hint without any
workspace-client or model call and without touching the cache; and every
fault — a faulting document listing, an unresolved document name, or a
faulting aggregation — is converted into a soft `{text, color}` payload
carrying the red error marker. -/
theorem cliq_soft_error_handling (c : CodaClient) (gen : String → Except String String)
    (req : CliqRequest) (st : CacheState) :
    (∀ res st2 tr, cliq_webhook c gen req st = (res, st2, tr) →
      ∃ resp, res = .ok resp) ∧
    (pyStrip req.text = "" → cliq_webhook c gen req st = (.ok usage_hint, st, [])) ∧
    (∀ e, pyStrip req.text ≠ "" → c.listDocs = .error e →
      cliq_webhook c gen req st = (.ok ⟨cliqErrText e, "#FF0000"⟩, st, [.docs])) ∧
    (∀ ds, pyStrip req.text ≠ "" → c.listDocs = .ok ds →
      resolve_from_docs configured_doc_name ds = none →
      cliq_webhook c gen req st =
        (.ok ⟨"‚ùå Coda document not found. Please check the configuration.",
          "#FF0000"⟩, st, [.docs])) ∧
    (∀ ds did e st2 tr, pyStrip req.text ≠ "" → c.listDocs = .ok ds →
      resolve_from_docs configured_doc_name ds = some did →
      buildContext c did st = (.error e, st2, tr) →
      cliq_webhook c gen req st =
        (.ok ⟨cliqErrText e, "#FF0000"⟩, st2, .docs :: tr)) := by
  refine ⟨cliq_is_ok c gen req st, ?_, ?_, ?_, ?_⟩
  · intro htrim
    unfold cliq_webhook
    simp [htrim]
  · intro e htrim hdocs
    have htrim2 : (pyStrip req.text == "") = false := by simpa using htrim
    unfold cliq_webhook
    simp [htrim2, resolve_doc_id, get_all_docs, hdocs]
  · intro ds htrim hdocs hres
    have htrim2 : (pyStrip req.text == "") = false := by simpa using htrim
    unfold cliq_webhook
    simp [htrim2, resolve_doc_id, get_all_docs, hdocs, hres]
  · intro ds did e st2 tr htrim hdocs hres hb
    have htrim2 : (pyStrip req.text == "") = false := by simpa using htrim
    unfold cliq_webhook
    simp [htrim2, resolve_doc_id, get_all_docs, hdocs, hres, hb]

/-- Witness for C8: a whitespace-only request short-circuits to the usage
hint with no calls, and a faulting document listing yields the soft red
payload. -/
theorem cliq_soft_error_handling_witness :
    cliq_webhook cTablesFail (fun _ => .ok "ans") ⟨"  ", none, none, none⟩
        ⟨none, none⟩ = (.ok usage_hint, ⟨none, none⟩, []) ∧
    cliq_webhook docsOnlyClient (fun _ => .ok "ans") ⟨"what is in stock?", none, none, none⟩
        ⟨none, none⟩ =
      (.ok ⟨"‚ùå Coda document not found. Please check the configuration.",
        "#FF0000"⟩, ⟨none, none⟩, [.docs]) := by
  constructor
  · exact (cliq_soft_error_handling cTablesFail (fun _ => .ok "ans")
      ⟨"  ", none, none, none⟩ ⟨none, none⟩).2.1 rfl
  · exact (cliq_soft_error_handling docsOnlyClient (fun _ => .ok "ans")
      ⟨"what is in stock?", none, none, none⟩ ⟨none, none⟩).2.2.2.1
      [⟨"id1", "my doc"⟩] (by decide) rfl rfl

end CodaApp
